import Mathlib

/-!
Verification of `typedoc-plugin-lib-utils` (src/index.ts) against its
natural-language specification.

The file shallowly embeds the library's own logic:
* the gzip-JSON codec wrappers `readGzipJson` / `writeGzipJson`
  (the assignment-statement regex, the data-URI marker, the pipeline order);
* the search-index rebuild engines: the legacy `rebuildSearch` row loop and
  the current post-render job loop installed by `getSearchTasks`;
* the navigation fill/format step of `formatNavigationItems`;
* the `getPackageFile` upward manifest walk.

External collaborators that the spec declares out of scope (node:zlib gzip,
Buffer base64, JSON.stringify/parse, the TypeDoc reflection model and theme,
the lunr builder internals, the filesystem) are modelled as parameters or as
plain data fields carrying the values those collaborators would produce.
-/

namespace LibUtils

/-- Byte strings as produced by node Buffers: lists of values below 256. -/
abbrev ByteSeq := List (Fin 256)

/--
External codec collaborators used by `readGzipJson` / `writeGzipJson`:
`gzip`/`gunzip` from node:zlib, `b64encode`/`b64decode` for
`buffer.toString('base64')` / `Buffer.from(content, 'base64')`, and
`serialize`/`deserialize` for `Buffer.from(JSON.stringify(value))` /
`JSON.parse(buffer.toString())`. The library treats all of them as opaque.
-/
structure Codec (α : Type) where
  gzip : ByteSeq → ByteSeq
  gunzip : ByteSeq → Option ByteSeq
  b64encode : ByteSeq → String
  b64decode : String → ByteSeq
  serialize : α → ByteSeq
  deserialize : ByteSeq → Option α

/-- The fixed marker prepended by `writeGzipJson` and stripped by
`readGzipJson` (source: the `data:application/octet-stream;base64,` string). -/
def dataUriMarker : String := "data:application/octet-stream;base64,"

/--
Embeds `writeGzipJson` (src/index.ts lines 112-131) up to the produced file
content: base64 of the gzip of the serialized value, prefixed with the
data-URI marker, and wrapped in an assignment statement when a (truthy, i.e.
nonempty) `jsVariable` is supplied.
-/
def writeGzipJson (c : Codec α) (value : α) (jsVariable : Option String) :
    String :=
  let content := dataUriMarker ++ c.b64encode (c.gzip (c.serialize value))
  match jsVariable with
  | some v => if v = "" then content else v ++ (" = \"") ++ content ++ ("\";")
  | none => content

/-- Drops `p` from the front of `l`, or fails when `p` is not a prefix. -/
def stripPrefixChars : List Char → List Char → Option (List Char)
  | [], content => some content
  | _ :: _, [] => none
  | p :: ps, ch :: cs => if p = ch then stripPrefixChars ps cs else none

/--
Matcher for the tail of the (escaped-identifier) regex
`^<id> = "([^"]*)";?$` once the literal `<id> = "` prefix has been removed:
a run of non-quote characters, a closing quote, an optional semicolon, end of
input. Returns the captured payload.
-/
def matchPayload : List Char → Option (List Char)
  | [] => none
  | ch :: rest =>
    if ch = '"' then
      if rest = [] ∨ rest = [';'] then some [] else none
    else
      (matchPayload rest).map (fun p => ch :: p)

/--
Whole-string match of `new RegExp(`^${escaped(v)} = "([^"]*)";?$`)` against
`content`: since every regex metacharacter of the identifier is escaped, the
identifier and the ` = "` separator match literally. Returns the capture. -/
def matchAssign (v content : List Char) : Option (List Char) :=
  (stripPrefixChars (v ++ (" = \"").data) content).bind matchPayload

/--
Embeds `content.replace(regex, '$1')`: the first (anchored, whole-string)
match is replaced by the captured payload; when nothing matches, `replace`
returns the content unchanged. -/
def stripJsVariable (v content : String) : String :=
  match matchAssign v.data content.data with
  | some payload => String.mk payload
  | none => content

/-- Embeds `content.replace(/^data:application\/octet-stream;base64,/, '')`. -/
def stripDataUriMarker (content : String) : String :=
  match stripPrefixChars dataUriMarker.data content.data with
  | some rest => String.mk rest
  | none => content

/--
Embeds `readGzipJson` (src/index.ts lines 88-110) from file content to parsed
value: strip the assignment statement when a truthy `jsVariable` is supplied
(a no-op when the pattern does not match), strip the data-URI marker,
base64-decode, gunzip (`none` on a decompression error), JSON-parse. -/
def readGzipJson (c : Codec α) (content : String) (jsVariable : Option String) :
    Option α :=
  let c1 := match jsVariable with
    | some v => if v = "" then content else stripJsVariable v content
    | none => content
  let c2 := stripDataUriMarker c1
  match c.gunzip (c.b64decode c2) with
  | some buffer => c.deserialize buffer
  | none => none

lemma data_append (s t : String) : (s ++ t).data = s.data ++ t.data := rfl

lemma mk_data (s : String) : String.mk s.data = s := rfl

lemma stripPrefixChars_append (p r : List Char) :
    stripPrefixChars p (p ++ r) = some r := by
  induction p with
  | nil => rfl
  | cons ch ps ih => simp [stripPrefixChars, ih]

lemma matchPayload_append (p : List Char) (hp : ∀ ch ∈ p, ch ≠ '"') :
    matchPayload (p ++ ['"', ';']) = some p := by
  induction p with
  | nil => simp [matchPayload]
  | cons ch ps ih =>
    have hch : ch ≠ '"' := hp ch (List.mem_cons_self ch ps)
    have ihe : matchPayload (ps ++ ['"', ';']) = some ps :=
      ih (fun x hx => hp x (List.mem_cons_of_mem ch hx))
    rw [List.cons_append]
    unfold matchPayload
    rw [if_neg hch, ihe]
    rfl

lemma stripDataUriMarker_append (s : String) :
    stripDataUriMarker (dataUriMarker ++ s) = s := by
  unfold stripDataUriMarker
  rw [data_append, stripPrefixChars_append]

lemma dataUriMarker_no_quote : ∀ ch ∈ dataUriMarker.data, ch ≠ '"' := by
  decide

lemma stripJsVariable_wrapped (v inner : String)
    (hq : ∀ ch ∈ inner.data, ch ≠ '"') :
    stripJsVariable v (v ++ (" = \"") ++ inner ++ ("\";")) = inner := by
  unfold stripJsVariable matchAssign
  have hdata :
      (v ++ (" = \"") ++ inner ++ ("\";")).data =
        (v.data ++ (" = \"").data) ++ (inner.data ++ ['"', ';']) := by
    simp [data_append, List.append_assoc]
  rw [hdata, stripPrefixChars_append]
  simp [Option.bind, matchPayload_append inner.data hq, mk_data]

/--
C1: codec round-trip. For every codec whose external collaborators satisfy
their contracts (gunzip inverts gzip, base64-decode inverts base64-encode,
base64 output never contains a double quote, JSON parse inverts JSON
stringify), decoding the encoding of any value — with the same variable name,
with the empty (falsy) name, or with none — yields the value back.
-/
theorem readGzipJson_roundtrip (c : Codec α)
    (hzip : ∀ b, c.gunzip (c.gzip b) = some b)
    (hb64 : ∀ b, c.b64decode (c.b64encode b) = b)
    (hquote : ∀ b, ∀ ch ∈ (c.b64encode b).data, ch ≠ '"')
    (hjson : ∀ v, c.deserialize (c.serialize v) = some v)
    (v : α) (jsVariable : Option String) :
    readGzipJson c (writeGzipJson c v jsVariable) jsVariable = some v := by
  have hcore :
      stripDataUriMarker
          (dataUriMarker ++ c.b64encode (c.gzip (c.serialize v))) =
        c.b64encode (c.gzip (c.serialize v)) :=
    stripDataUriMarker_append _
  have hinner :
      ∀ ch ∈ (dataUriMarker ++ c.b64encode (c.gzip (c.serialize v))).data,
        ch ≠ '"' := by
    intro ch hch
    rw [data_append] at hch
    rcases List.mem_append.mp hch with h | h
    · exact dataUriMarker_no_quote ch h
    · exact hquote _ ch h
  match jsVariable with
  | none =>
    simp only [readGzipJson, writeGzipJson, hcore, hb64, hzip, hjson]
  | some jv =>
    by_cases hv : jv = ""
    · simp [readGzipJson, writeGzipJson, hv, hcore, hb64, hzip, hjson]
    · simp only [readGzipJson, writeGzipJson, if_neg hv,
        stripJsVariable_wrapped jv _ hinner, hcore, hb64, hzip, hjson]

/-- Maps a byte to a printable stand-in character outside the quote range;
used only to build a concrete codec witnessing the abstract contracts. -/
def byteChar (n : Fin 256) : Char := Char.ofNat (256 + n.val)

/-- Left inverse of `byteChar`. -/
def charByte (ch : Char) : Fin 256 :=
  ⟨(ch.toNat - 256) % 256, Nat.mod_lt _ (by decide)⟩

set_option maxRecDepth 4000 in
lemma charByte_byteChar : ∀ n : Fin 256, charByte (byteChar n) = n := by
  decide

set_option maxRecDepth 4000 in
lemma byteChar_ne_quote : ∀ n : Fin 256, byteChar n ≠ '"' := by
  decide

/-- A concrete codec (identity compression, one-character-per-byte transport,
trivial serialization of `Unit`) satisfying every collaborator contract. -/
def unitCodec : Codec Unit where
  gzip := id
  gunzip := some
  b64encode := fun b => String.mk (b.map byteChar)
  b64decode := fun s => s.data.map charByte
  serialize := fun _ => []
  deserialize := fun _ => some ()

lemma unitCodec_gunzip_gzip : ∀ b, unitCodec.gunzip (unitCodec.gzip b) = some b :=
  fun _ => rfl

lemma unitCodec_b64 : ∀ b, unitCodec.b64decode (unitCodec.b64encode b) = b := by
  intro b
  show (b.map byteChar).map charByte = b
  rw [List.map_map]
  have : ∀ l : ByteSeq, l.map (charByte ∘ byteChar) = l := by
    intro l
    induction l with
    | nil => rfl
    | cons x xs ih => simp [Function.comp, charByte_byteChar x, ih]
  exact this b

lemma unitCodec_no_quote :
    ∀ b, ∀ ch ∈ (unitCodec.b64encode b).data, ch ≠ '"' := by
  intro b ch hch
  have : ch ∈ b.map byteChar := hch
  rcases List.mem_map.mp this with ⟨n, _, hn⟩
  exact hn ▸ byteChar_ne_quote n

lemma unitCodec_json :
    ∀ v, unitCodec.deserialize (unitCodec.serialize v) = some v := by
  intro v
  cases v
  rfl

/-- C1 witness: the round-trip evaluated at a concrete codec, the variable
name used by the library (`window.searchData`), and a concrete value. -/
theorem readGzipJson_roundtrip_witness :
    readGzipJson unitCodec
        (writeGzipJson unitCodec () (some ("window.searchData")))
        (some ("window.searchData")) = some () :=
  readGzipJson_roundtrip unitCodec unitCodec_gunzip_gzip unitCodec_b64
    unitCodec_no_quote unitCodec_json () (some ("window.searchData"))

/--
C2 counterexample: the claim asserts that when a variable name is supplied
and the content does not match the assignment pattern, decoding fails. On the
code, `String.replace` with a non-matching pattern is a no-op, so decoding
proceeds with the unchanged content — here a bare (unwrapped) artifact read
with the variable name `window.searchData` does not match the pattern yet
decodes successfully.
-/
theorem readGzipJson_mismatch_succeeds :
    matchAssign ("window.searchData").data
        (writeGzipJson unitCodec () none).data = none ∧
    readGzipJson unitCodec (writeGzipJson unitCodec () none)
        (some ("window.searchData")) = some () := by
  constructor
  · decide
  · decide

/--
C2 amended: when a variable name is supplied and the content does not match
the assignment pattern `<identifier> = "<payload>";?` (the identifier matched
literally, its regex metacharacters escaped), the stripping step is a no-op
and decoding proceeds exactly as in the no-variable-name form; no error is
raised by the pattern check itself.
-/
theorem readGzipJson_mismatch_noop (c : Codec α) (content : String)
    (v : String) (hmatch : matchAssign v.data content.data = none) :
    readGzipJson c content (some v) = readGzipJson c content none := by
  by_cases hv : v = ""
  · simp [readGzipJson, hv]
  · simp only [readGzipJson, if_neg hv, stripJsVariable, hmatch]

/-- C2 amended witness: the no-op equation evaluated at a concrete mismatching
content and variable name. -/
theorem readGzipJson_mismatch_noop_witness :
    readGzipJson unitCodec ("not an assignment")
        (some ("window.searchData")) =
      readGzipJson unitCodec ("not an assignment") none :=
  readGzipJson_mismatch_noop unitCodec ("not an assignment")
    ("window.searchData") (by decide)

/-!
Search-index rebuild engine. The TypeDoc reflection model is external: a
`ReflectionData` record carries, per entity, exactly the values the library
reads off the host — `url`, `name`, `kind`, the theme's
`getReflectionClasses` result (`classes`), the nearest non-project parent's
`getFullName` (`parentName`), the `flags.isExternal` flag (`isForeign`), the
entity's own comment, the declaration/document shape used by
`isDeclaration()` / `isDocument()` (`detail`), `relevanceBoost`, and
`isDeprecated()` (`deprecated`, used by the navigation merge).
-/

/-- The two host options read by both rebuild paths. -/
structure RebuildConfig where
  searchInComments : Bool
  searchInDocuments : Bool
deriving DecidableEq

/-- One display part of a TypeDoc comment; the library only reads `.text`. -/
structure CommentPart where
  text : String
deriving DecidableEq

/-- One block tag of a TypeDoc comment; the library only reads `.content`. -/
structure BlockTag where
  content : List CommentPart
deriving DecidableEq

/-- A TypeDoc `Comment`: summary parts plus block tags. -/
structure CommentData where
  summary : List CommentPart
  blockTags : List BlockTag
deriving DecidableEq

/-- A call/construct/accessor signature; the library only reads `.comment`. -/
structure SignatureData where
  comment : Option CommentData
deriving DecidableEq

/-- The runtime shape of an entity: `DeclarationReflection` (with its
signatures and accessor signatures), `DocumentReflection` (with its content
parts), or any other reflection kind. -/
inductive ReflectionDetail where
  | declaration (signatures : List SignatureData)
      (getSignature : Option SignatureData) (setSignature : Option SignatureData)
  | document (content : List CommentPart)
  | other
deriving DecidableEq

/-- The per-entity values the library reads from the host. -/
structure ReflectionData where
  url : String
  name : String
  kind : Nat
  classes : String
  parentName : Option String
  isForeign : Bool
  comment : Option CommentData
  detail : ReflectionDetail
  relevanceBoost : Option ℚ
  deprecated : Bool
deriving DecidableEq

/-- Embeds `[...comment.summary, ...comment.blockTags.flatMap(t => t.content)]`. -/
def commentParts (c : CommentData) : List CommentPart :=
  c.summary ++ c.blockTags.flatMap (fun t => t.content)

/-- Pushes an optional comment onto the collected list, as the repeated
`if (x.comment) comments.push(x.comment)` sites do. -/
def optionalComment (oc : Option CommentData) : List CommentData :=
  match oc with
  | some c => [c]
  | none => []

/-- Embeds the `comments` accumulation of the fill phase (src/index.ts lines
256-280): the entity's own comment, then — for declarations — each
signature's comment, the getter signature's comment, the setter signature's
comment. -/
def collectComments (r : ReflectionData) : List CommentData :=
  optionalComment r.comment ++
    match r.detail with
    | ReflectionDetail.declaration sigs gs ss =>
        sigs.filterMap (fun s => s.comment) ++
          optionalComment (gs.bind (fun s => s.comment)) ++
          optionalComment (ss.bind (fun s => s.comment))
    | _ => []

/-- Embeds the `comment` derivation (lines 281-289): when any comment was
collected, join every part's text with newlines; otherwise leave unset. -/
def commentText (r : ReflectionData) : Option String :=
  let comments := collectComments r
  if comments.isEmpty then none
  else
    some (String.intercalate ("\n")
      ((comments.flatMap commentParts).map (fun p => p.text)))

/-- Embeds the `document` derivation (lines 292-300): for a document-kind
entity, the content parts' texts joined with newlines; otherwise unset. -/
def documentText (r : ReflectionData) : Option String :=
  match r.detail with
  | ReflectionDetail.document content =>
      some (String.intercalate ("\n") (content.map (fun p => p.text)))
  | _ => none

/-- One row of the search artifact (`SearchItem` in the source). A JS field
holding `undefined` is `none`; a falsy `url` is the empty string. -/
@[ext]
structure SearchRow where
  url : String
  kind : Option Nat := none
  name : Option String := none
  classes : Option String := none
  parent : Option String := none
  comment : Option String := none
  document : Option String := none
  boost : Option ℚ := none
deriving DecidableEq

/-- Embeds `if (row.kind === undefined) row.kind = reflection.kind`. -/
def fillKind (r : ReflectionData) (row : SearchRow) : SearchRow :=
  if row.kind = none then { row with kind := some r.kind } else row

/-- Embeds `if (row.name === undefined) row.name = reflection.name`. -/
def fillName (r : ReflectionData) (row : SearchRow) : SearchRow :=
  if row.name = none then { row with name := some r.name } else row

/-- Embeds the `classes` fill from `theme.getReflectionClasses`. -/
def fillClasses (r : ReflectionData) (row : SearchRow) : SearchRow :=
  if row.classes = none then { row with classes := some r.classes } else row

/-- Embeds the `parent` fill: the nearest non-project parent's full name,
when there is one. -/
def fillParent (r : ReflectionData) (row : SearchRow) : SearchRow :=
  if row.parent = none then
    match r.parentName with
    | some p => { row with parent := some p }
    | none => row
  else row

/-- Embeds the `comment` fill, guarded by the `searchInComments` option. -/
def fillCommentField (cfg : RebuildConfig) (r : ReflectionData)
    (row : SearchRow) : SearchRow :=
  if row.comment = none ∧ cfg.searchInComments = true then
    match commentText r with
    | some t => { row with comment := some t }
    | none => row
  else row

/-- Embeds the `document` fill, guarded by the `searchInDocuments` option and
by `reflection.isDocument()` (folded into `documentText`). -/
def fillDocumentField (cfg : RebuildConfig) (r : ReflectionData)
    (row : SearchRow) : SearchRow :=
  if row.document = none ∧ cfg.searchInDocuments = true then
    match documentText r with
    | some t => { row with document := some t }
    | none => row
  else row

/-- The fill steps shared verbatim by both rebuild paths, in source order:
kind, name, classes, parent, comment, document. -/
def fillCommon (cfg : RebuildConfig) (r : ReflectionData) (row : SearchRow) :
    SearchRow :=
  fillDocumentField cfg r
    (fillCommentField cfg r
      (fillParent r (fillClasses r (fillName r (fillKind r row)))))

/-- Embeds the legacy boost fill (lines 302-308): `relevanceBoost ?? 1`,
then clamped up to 1 when non-positive. -/
def fillBoostLegacy (r : ReflectionData) (row : SearchRow) : SearchRow :=
  if row.boost = none then
    let b := (r.relevanceBoost).getD 1
    { row with boost := some (if b ≤ 0 then 1 else b) }
  else row

/-- Embeds the current-path boost fill (lines 496-498): `relevanceBoost ?? 1`
with no clamp. -/
def fillBoostCurrent (r : ReflectionData) (row : SearchRow) : SearchRow :=
  if row.boost = none then
    { row with boost := some ((r.relevanceBoost).getD 1) }
  else row

/-- The complete per-row fill of the legacy `rebuildSearch` path. -/
def fillLegacy (cfg : RebuildConfig) (r : ReflectionData) (row : SearchRow) :
    SearchRow :=
  fillBoostLegacy r (fillCommon cfg r row)

/-- The complete per-row fill of the current post-render job path. -/
def fillCurrent (cfg : RebuildConfig) (r : ReflectionData) (row : SearchRow) :
    SearchRow :=
  fillBoostCurrent r (fillCommon cfg r row)

/-- The value the legacy boost fill stores when the field was unset. -/
def legacyBoostValue (r : ReflectionData) : ℚ :=
  if (r.relevanceBoost).getD 1 ≤ 0 then 1 else (r.relevanceBoost).getD 1

/-- The fill-if-unset merge combinator, used to characterize the fill steps. -/
def fillIf (current derived : Option α) : Option α :=
  match current with
  | none => derived
  | some x => some x

lemma fillIf_idem (a b : Option α) : fillIf (fillIf a b) b = fillIf a b := by
  cases a <;> cases b <;> rfl

lemma fillIf_of_ne_none (a b : Option α) (h : a ≠ none) : fillIf a b = a := by
  cases a with
  | none => exact absurd rfl h
  | some x => rfl

lemma fillKind_eq (r : ReflectionData) (row : SearchRow) :
    fillKind r row = { row with kind := fillIf row.kind (some r.kind) } := by
  unfold fillKind fillIf
  cases h : row.kind with
  | none => simp
  | some k => apply SearchRow.ext <;> simp [h]

lemma fillName_eq (r : ReflectionData) (row : SearchRow) :
    fillName r row = { row with name := fillIf row.name (some r.name) } := by
  unfold fillName fillIf
  cases h : row.name with
  | none => simp
  | some k => apply SearchRow.ext <;> simp [h]

lemma fillClasses_eq (r : ReflectionData) (row : SearchRow) :
    fillClasses r row =
      { row with classes := fillIf row.classes (some r.classes) } := by
  unfold fillClasses fillIf
  cases h : row.classes with
  | none => simp
  | some k => apply SearchRow.ext <;> simp [h]

lemma fillParent_eq (r : ReflectionData) (row : SearchRow) :
    fillParent r row = { row with parent := fillIf row.parent r.parentName } := by
  unfold fillParent fillIf
  cases h : row.parent with
  | none => cases hp : r.parentName <;> apply SearchRow.ext <;> simp [h, hp]
  | some k => apply SearchRow.ext <;> simp [h]

lemma fillCommentField_eq (cfg : RebuildConfig) (r : ReflectionData)
    (row : SearchRow) :
    fillCommentField cfg r row =
      { row with comment :=
          if cfg.searchInComments = true then fillIf row.comment (commentText r)
          else row.comment } := by
  unfold fillCommentField fillIf
  by_cases hf : cfg.searchInComments = true <;>
    cases h : row.comment <;>
      cases hct : commentText r <;>
        apply SearchRow.ext <;> simp [h, hf, hct]

lemma fillDocumentField_eq (cfg : RebuildConfig) (r : ReflectionData)
    (row : SearchRow) :
    fillDocumentField cfg r row =
      { row with document :=
          if cfg.searchInDocuments = true then
            fillIf row.document (documentText r)
          else row.document } := by
  unfold fillDocumentField fillIf
  by_cases hf : cfg.searchInDocuments = true <;>
    cases h : row.document <;>
      cases hdt : documentText r <;>
        apply SearchRow.ext <;> simp [h, hf, hdt]

lemma fillBoostLegacy_eq (r : ReflectionData) (row : SearchRow) :
    fillBoostLegacy r row =
      { row with boost := fillIf row.boost (some (legacyBoostValue r)) } := by
  unfold fillBoostLegacy fillIf legacyBoostValue
  cases h : row.boost with
  | none => simp
  | some b => apply SearchRow.ext <;> simp [h]

lemma fillBoostCurrent_eq (r : ReflectionData) (row : SearchRow) :
    fillBoostCurrent r row =
      { row with
        boost := fillIf row.boost (some ((r.relevanceBoost).getD 1)) } := by
  unfold fillBoostCurrent fillIf
  cases h : row.boost with
  | none => simp
  | some b => apply SearchRow.ext <;> simp [h]

lemma fillCommon_eq (cfg : RebuildConfig) (r : ReflectionData)
    (row : SearchRow) :
    fillCommon cfg r row =
      { row with
        kind := fillIf row.kind (some r.kind)
        name := fillIf row.name (some r.name)
        classes := fillIf row.classes (some r.classes)
        parent := fillIf row.parent r.parentName
        comment :=
          if cfg.searchInComments = true then fillIf row.comment (commentText r)
          else row.comment
        document :=
          if cfg.searchInDocuments = true then
            fillIf row.document (documentText r)
          else row.document } := by
  unfold fillCommon
  rw [fillKind_eq, fillName_eq, fillClasses_eq, fillParent_eq,
    fillCommentField_eq, fillDocumentField_eq]

lemma fillLegacy_eq (cfg : RebuildConfig) (r : ReflectionData)
    (row : SearchRow) :
    fillLegacy cfg r row =
      { row with
        kind := fillIf row.kind (some r.kind)
        name := fillIf row.name (some r.name)
        classes := fillIf row.classes (some r.classes)
        parent := fillIf row.parent r.parentName
        comment :=
          if cfg.searchInComments = true then fillIf row.comment (commentText r)
          else row.comment
        document :=
          if cfg.searchInDocuments = true then
            fillIf row.document (documentText r)
          else row.document
        boost := fillIf row.boost (some (legacyBoostValue r)) } := by
  unfold fillLegacy
  rw [fillCommon_eq, fillBoostLegacy_eq]

lemma fillCurrent_eq (cfg : RebuildConfig) (r : ReflectionData)
    (row : SearchRow) :
    fillCurrent cfg r row =
      { row with
        kind := fillIf row.kind (some r.kind)
        name := fillIf row.name (some r.name)
        classes := fillIf row.classes (some r.classes)
        parent := fillIf row.parent r.parentName
        comment :=
          if cfg.searchInComments = true then fillIf row.comment (commentText r)
          else row.comment
        document :=
          if cfg.searchInDocuments = true then
            fillIf row.document (documentText r)
          else row.document
        boost := fillIf row.boost (some ((r.relevanceBoost).getD 1)) } := by
  unfold fillCurrent
  rw [fillCommon_eq, fillBoostCurrent_eq]

/--
C7: idempotence of the per-row fill phase, in both rebuild paths: filling a
row twice against the same matched entity equals filling it once, and a field
that is already set is never overwritten by the fill.
-/
theorem fill_idempotent (cfg : RebuildConfig) (r : ReflectionData)
    (row : SearchRow) :
    fillLegacy cfg r (fillLegacy cfg r row) = fillLegacy cfg r row ∧
    fillCurrent cfg r (fillCurrent cfg r row) = fillCurrent cfg r row ∧
    (row.kind ≠ none → (fillLegacy cfg r row).kind = row.kind ∧
      (fillCurrent cfg r row).kind = row.kind) ∧
    (row.name ≠ none → (fillLegacy cfg r row).name = row.name ∧
      (fillCurrent cfg r row).name = row.name) ∧
    (row.classes ≠ none → (fillLegacy cfg r row).classes = row.classes ∧
      (fillCurrent cfg r row).classes = row.classes) ∧
    (row.parent ≠ none → (fillLegacy cfg r row).parent = row.parent ∧
      (fillCurrent cfg r row).parent = row.parent) ∧
    (row.comment ≠ none → (fillLegacy cfg r row).comment = row.comment ∧
      (fillCurrent cfg r row).comment = row.comment) ∧
    (row.document ≠ none → (fillLegacy cfg r row).document = row.document ∧
      (fillCurrent cfg r row).document = row.document) ∧
    (row.boost ≠ none → (fillLegacy cfg r row).boost = row.boost ∧
      (fillCurrent cfg r row).boost = row.boost) := by
  refine ⟨?_, ?_, ?_, ?_, ?_, ?_, ?_, ?_, ?_⟩
  · apply SearchRow.ext <;>
      simp [fillLegacy_eq, fillIf_idem] <;>
        split_ifs <;> simp_all [fillIf_idem]
  · apply SearchRow.ext <;>
      simp [fillCurrent_eq, fillIf_idem] <;>
        split_ifs <;> simp_all [fillIf_idem]
  · intro h
    exact ⟨by simp [fillLegacy_eq, fillIf_of_ne_none _ _ h],
      by simp [fillCurrent_eq, fillIf_of_ne_none _ _ h]⟩
  · intro h
    exact ⟨by simp [fillLegacy_eq, fillIf_of_ne_none _ _ h],
      by simp [fillCurrent_eq, fillIf_of_ne_none _ _ h]⟩
  · intro h
    exact ⟨by simp [fillLegacy_eq, fillIf_of_ne_none _ _ h],
      by simp [fillCurrent_eq, fillIf_of_ne_none _ _ h]⟩
  · intro h
    exact ⟨by simp [fillLegacy_eq, fillIf_of_ne_none _ _ h],
      by simp [fillCurrent_eq, fillIf_of_ne_none _ _ h]⟩
  · intro h
    constructor
    · simp only [fillLegacy_eq]
      split_ifs <;> simp [fillIf_of_ne_none _ _ h]
    · simp only [fillCurrent_eq]
      split_ifs <;> simp [fillIf_of_ne_none _ _ h]
  · intro h
    constructor
    · simp only [fillLegacy_eq]
      split_ifs <;> simp [fillIf_of_ne_none _ _ h]
    · simp only [fillCurrent_eq]
      split_ifs <;> simp [fillIf_of_ne_none _ _ h]
  · intro h
    exact ⟨by simp [fillLegacy_eq, fillIf_of_ne_none _ _ h],
      by simp [fillCurrent_eq, fillIf_of_ne_none _ _ h]⟩

/-- Both host search options enabled. -/
def cfg0 : RebuildConfig := ⟨true, true⟩

/-- A concrete matched entity (Scenario 2 shape: name Foo, kind 64). -/
def refl0 : ReflectionData where
  url := "a.html"
  name := "Foo"
  kind := 64
  classes := "tsd-kind-class"
  parentName := none
  isForeign := false
  comment := none
  detail := ReflectionDetail.declaration [] none none
  relevanceBoost := none
  deprecated := false

/-- A concrete row with every optional field already set. -/
def rowFull : SearchRow where
  url := "a.html"
  kind := some 1
  name := some ("N")
  classes := some ("c")
  parent := some ("p")
  comment := some ("x")
  document := some ("d")
  boost := some 2

/-- C7 witness: fill idempotence and already-set preservation evaluated at a
concrete row/entity pairing. -/
theorem fill_idempotent_witness :
    fillLegacy cfg0 refl0 (fillLegacy cfg0 refl0 rowFull) =
        fillLegacy cfg0 refl0 rowFull ∧
    (fillLegacy cfg0 refl0 rowFull).name = rowFull.name ∧
    (fillCurrent cfg0 refl0 rowFull).boost = rowFull.boost := by
  have h := fill_idempotent cfg0 refl0 rowFull
  exact ⟨h.1, (h.2.2.2.1 (by decide)).1,
    (h.2.2.2.2.2.2.2.2 (by decide)).2⟩

/-- The matched entity of the C4 counterexample: relevance boost -2. -/
def reflNegBoost : ReflectionData :=
  { refl0 with relevanceBoost := some (-2) }

/-- A row with only a url; every optional field unset. -/
def rowBare : SearchRow := { url := "a.html" }

/--
C4 counterexample: the claim asserts that in both rebuild paths the fill
phase coerces a non-positive resolved boost to 1. In the current path
(src/index.ts lines 496-498) there is no coercion: a matched entity with
relevance boost -2 leaves -2 on the row.
-/
theorem fill_boost_not_coerced :
    (fillCurrent cfg0 reflNegBoost rowBare).boost = some (-2) ∧
    (fillCurrent cfg0 reflNegBoost rowBare).boost ≠ some 1 ∧
    ((-2 : ℚ) ≤ 0) := by
  refine ⟨?_, ?_, by norm_num⟩ <;> decide

/--
C4 amended: for a row matched to an entity with `boost` unset, the legacy
fill sets the entity's relevance boost (default 1) coerced to 1 when
non-positive, while the current-path fill sets the entity's relevance boost
(default 1) with no coercion (a non-positive value later excludes the row
from the index instead).
-/
theorem fill_boost_amended (cfg : RebuildConfig) (r : ReflectionData)
    (row : SearchRow) (h : row.boost = none) :
    (fillLegacy cfg r row).boost = some (legacyBoostValue r) ∧
    (fillCurrent cfg r row).boost = some ((r.relevanceBoost).getD 1) := by
  constructor
  · simp [fillLegacy_eq, h, fillIf]
  · simp [fillCurrent_eq, h, fillIf]

/-- C4 amended witness: the two boost fills evaluated on a concrete unset row
and an entity with relevance boost -2: legacy clamps to 1, current keeps -2. -/
theorem fill_boost_amended_witness :
    (fillLegacy cfg0 reflNegBoost rowBare).boost = some 1 ∧
    (fillCurrent cfg0 reflNegBoost rowBare).boost = some (-2) := by
  have h := fill_boost_amended cfg0 reflNegBoost rowBare (rfl)
  refine ⟨?_, h.2⟩
  rw [h.1]
  decide

/-!
The two row loops. `indexEvent.searchFieldWeights` only configures lunr
field boosts and does not affect which documents are added, so the builder is
modelled as the list of added documents; `indexEvent.searchFields` (extra
host-supplied indexed fields, looked up by reflection index) is an external
parameter `sf`.
-/

/-- One document added to the lunr builder: the spread
`{name, comment, document, ...searchFields[reflectionIndex], id}` plus the
`{ boost }` attribute (which the legacy path passes through possibly
undefined, and the current path defaults to 1). -/
structure IndexDoc where
  name : Option String
  comment : Option String
  document : Option String
  extra : List (String × String)
  id : Nat
  boost : Option ℚ
deriving DecidableEq

/-- Embeds `reflections.findIndex(reflection => reflection.url === row.url)`
plus the element access: the first eligible reflection with the row's url,
together with its index. -/
def lookupReflection (refls : List ReflectionData) (url : String) :
    Option (Nat × ReflectionData) :=
  (refls.enum).find? (fun p => p.snd.url == url)

/-- The optional format callbacks accepted by the legacy `rebuildSearch`. -/
structure LegacyFormatOptions where
  formatName : Option (Option String → Option ReflectionData → Option String) := none
  formatComment : Option (Option String → Option ReflectionData → Option String) := none
  formatDocument : Option (Option String → Option ReflectionData → Option String) := none

/-- Embeds `if (options?.formatX) row.x = options.formatX(row.x, reflection)`. -/
def applyLegacyFormat
    (f : Option (Option String → Option ReflectionData → Option String))
    (v : Option String) (r : Option ReflectionData) : Option String :=
  match f with
  | some g => g v r
  | none => v

/-- One iteration of the legacy `rebuildSearch` row loop (src/index.ts lines
220-339): skip rows with a falsy url entirely; otherwise fill from the
matched reflection, apply the option format callbacks, add a document built
from the row (id = loop position, boost passed through as-is), and delete
`comment`, `document`, `boost` from the persisted row. -/
def stepLegacy (cfg : RebuildConfig) (refls : List ReflectionData)
    (sf : Nat → List (String × String)) (opts : LegacyFormatOptions)
    (id : Nat) (row : SearchRow) : SearchRow × Option IndexDoc :=
  if row.url = "" then (row, none)
  else
    let found := lookupReflection refls row.url
    let row1 := match found with
      | some (_, r) => fillLegacy cfg r row
      | none => row
    let reflOpt := found.map (fun p => p.snd)
    let row2 := { row1 with
      name := applyLegacyFormat opts.formatName row1.name reflOpt
      comment := applyLegacyFormat opts.formatComment row1.comment reflOpt
      document := applyLegacyFormat opts.formatDocument row1.document reflOpt }
    let doc : IndexDoc := {
      name := row2.name
      comment := row2.comment
      document := row2.document
      extra := match found with | some (i, _) => sf i | none => []
      id := id
      boost := row2.boost }
    ({ row2 with comment := none, document := none, boost := none }, some doc)

/-- The state of a row in the current path right after the format phase: fill
from the matched reflection, then run every registered format callback in
registration order (awaited sequentially, modelled as a left fold). -/
def afterFormatCurrent (cfg : RebuildConfig) (refls : List ReflectionData)
    (formats : List (SearchRow → SearchRow)) (item : SearchRow) : SearchRow :=
  let item1 := match lookupReflection refls item.url with
    | some (_, r) => fillCurrent cfg r item
    | none => item
  formats.foldl (fun it f => f it) item1

/-- Embeds the current path's add guard
`item.url && (item.boost === undefined || item.boost > 0)`. -/
def addCheck (item : SearchRow) : Bool :=
  (item.url != "") &&
    (match item.boost with
     | none => true
     | some b => decide (0 < b))

/-- One iteration of the current post-render job row loop (src/index.ts lines
417-524): fill, format callbacks, guarded add (id = loop position, boost
defaulted to 1), then normalize an unset name to the empty string and delete
`comment`, `document`, `boost` — unconditionally, for every row. -/
def stepCurrent (cfg : RebuildConfig) (refls : List ReflectionData)
    (sf : Nat → List (String × String)) (formats : List (SearchRow → SearchRow))
    (id : Nat) (item : SearchRow) : SearchRow × Option IndexDoc :=
  let found := lookupReflection refls item.url
  let it := afterFormatCurrent cfg refls formats item
  let doc : Option IndexDoc :=
    if addCheck it then
      some { name := it.name
             comment := it.comment
             document := it.document
             extra := match found with | some (i, _) => sf i | none => []
             id := id
             boost := some (it.boost.getD 1) }
    else none
  ({ it with
      name := some (it.name.getD (""))
      comment := none
      document := none
      boost := none }, doc)

/-- Runs a row-loop body over a list with the running `entries()` index,
collecting the persisted rows and the added index documents. -/
def rebuildRowsFrom (step : Nat → SearchRow → SearchRow × Option IndexDoc) :
    Nat → List SearchRow → List SearchRow × List IndexDoc
  | _, [] => ([], [])
  | i, row :: rest =>
    let pr := step i row
    let acc := rebuildRowsFrom step (i + 1) rest
    (pr.fst :: acc.fst,
      match pr.snd with
      | some d => d :: acc.snd
      | none => acc.snd)

/-- The whole row loop, starting the `entries()` index at 0. -/
def rebuildRows (step : Nat → SearchRow → SearchRow × Option IndexDoc)
    (rows : List SearchRow) : List SearchRow × List IndexDoc :=
  rebuildRowsFrom step 0 rows

/-- The legacy `rebuildSearch` over a row list: persisted rows plus the built
index documents. -/
def rebuildSearch (cfg : RebuildConfig) (refls : List ReflectionData)
    (sf : Nat → List (String × String)) (opts : LegacyFormatOptions)
    (rows : List SearchRow) : List SearchRow × List IndexDoc :=
  rebuildRows (stepLegacy cfg refls sf opts) rows

/-- The current post-render job over the row list read from the artifact:
alter callbacks in registration order, then the row loop. -/
def runSearchJob (cfg : RebuildConfig) (refls : List ReflectionData)
    (sf : Nat → List (String × String))
    (alters : List (List SearchRow → List SearchRow))
    (formats : List (SearchRow → SearchRow)) (rows : List SearchRow) :
    List SearchRow × List IndexDoc :=
  rebuildRows (stepCurrent cfg refls sf formats)
    (alters.foldl (fun rs a => a rs) rows)

lemma mem_rebuildRowsFrom_fst (step : Nat → SearchRow → SearchRow × Option IndexDoc) :
    ∀ (i : Nat) (rows : List SearchRow) (row : SearchRow),
      row ∈ (rebuildRowsFrom step i rows).fst →
        ∃ k r, r ∈ rows ∧ row = (step k r).fst := by
  intro i rows
  induction rows generalizing i with
  | nil => intro row h; simp [rebuildRowsFrom] at h
  | cons r0 rest ih =>
    intro row h
    simp only [rebuildRowsFrom, List.mem_cons] at h
    rcases h with h | h
    · exact ⟨i, r0, List.mem_cons_self r0 rest, h⟩
    · rcases ih (i + 1) row h with ⟨k, r, hr, heq⟩
      exact ⟨k, r, List.mem_cons_of_mem r0 hr, heq⟩

lemma rebuildRowsFrom_fst_length
    (step : Nat → SearchRow → SearchRow × Option IndexDoc) :
    ∀ (i : Nat) (rows : List SearchRow),
      (rebuildRowsFrom step i rows).fst.length = rows.length := by
  intro i rows
  induction rows generalizing i with
  | nil => rfl
  | cons r0 rest ih => simp [rebuildRowsFrom, ih]

lemma stepCurrent_fst_stripped (cfg : RebuildConfig)
    (refls : List ReflectionData) (sf : Nat → List (String × String))
    (formats : List (SearchRow → SearchRow)) (id : Nat) (item : SearchRow) :
    (stepCurrent cfg refls sf formats id item).fst.comment = none ∧
    (stepCurrent cfg refls sf formats id item).fst.document = none ∧
    (stepCurrent cfg refls sf formats id item).fst.boost = none :=
  ⟨rfl, rfl, rfl⟩

/--
C3 counterexample: the claim asserts that after a rebuild on either path no
persisted row carries `comment`, `document`, or `boost`. In the legacy
`rebuildSearch`, a row with a falsy (empty) url is skipped by `continue`
before the deletes, so its `comment` survives the rebuild.
-/
theorem strip_claim_false :
    ¬ (∀ row ∈ (rebuildSearch cfg0 [] (fun _ => []) {}
          [{ url := "", comment := some ("x") }]).fst,
        row.comment = none ∧ row.document = none ∧ row.boost = none) := by
  intro h
  have := h { url := "", comment := some ("x") } (by decide)
  simp at this

/--
C3 amended: after a rebuild, `comment`, `document`, and `boost` are stripped
from every persisted row in the current post-render path, and from every
persisted row whose url is truthy (nonempty) in the legacy `rebuildSearch`
path; a legacy-path row with an empty url is skipped whole and keeps its
transient fields.
-/
theorem strip_after_rebuild :
    (∀ (cfg : RebuildConfig) (refls : List ReflectionData)
        (sf : Nat → List (String × String))
        (formats : List (SearchRow → SearchRow)) (rows : List SearchRow)
        (row : SearchRow),
      row ∈ (rebuildRows (stepCurrent cfg refls sf formats) rows).fst →
        row.comment = none ∧ row.document = none ∧ row.boost = none) ∧
    (∀ (cfg : RebuildConfig) (refls : List ReflectionData)
        (sf : Nat → List (String × String)) (opts : LegacyFormatOptions)
        (rows : List SearchRow) (row : SearchRow),
      row ∈ (rebuildSearch cfg refls sf opts rows).fst → row.url ≠ "" →
        row.comment = none ∧ row.document = none ∧ row.boost = none) := by
  constructor
  · intro cfg refls sf formats rows row hmem
    rcases mem_rebuildRowsFrom_fst _ 0 rows row hmem with ⟨k, r, _, heq⟩
    rw [heq]
    exact stepCurrent_fst_stripped cfg refls sf formats k r
  · intro cfg refls sf opts rows row hmem hurl
    rcases mem_rebuildRowsFrom_fst _ 0 rows row hmem with ⟨k, r, _, heq⟩
    by_cases hu : r.url = ""
    · rw [heq] at hurl ⊢
      unfold stepLegacy at hurl
      rw [if_pos hu] at hurl
      exact absurd hu hurl
    · rw [heq]
      unfold stepLegacy
      rw [if_neg hu]
      exact ⟨rfl, rfl, rfl⟩

/-- No host-supplied extra search fields. -/
def noExtra : Nat → List (String × String) := fun _ => []

/-- C3 amended witness: both strip statements evaluated on concrete rebuilds
of a one-row list with every transient field set. -/
theorem strip_after_rebuild_witness :
    ((stepCurrent cfg0 [] noExtra [] 0 rowFull).fst.comment = none ∧
      (stepCurrent cfg0 [] noExtra [] 0 rowFull).fst.document = none ∧
      (stepCurrent cfg0 [] noExtra [] 0 rowFull).fst.boost = none) ∧
    ((stepLegacy cfg0 [] noExtra {} 0 rowFull).fst.comment = none ∧
      (stepLegacy cfg0 [] noExtra {} 0 rowFull).fst.document = none ∧
      (stepLegacy cfg0 [] noExtra {} 0 rowFull).fst.boost = none) :=
  ⟨strip_after_rebuild.1 cfg0 [] noExtra [] [rowFull]
      (stepCurrent cfg0 [] noExtra [] 0 rowFull).fst (by decide),
    strip_after_rebuild.2 cfg0 [] noExtra {} [rowFull]
      (stepLegacy cfg0 [] noExtra {} 0 rowFull).fst (by decide) (by decide)⟩

/--
C5: exclusion by boost. In the current path, a row whose boost is a number
not above 0 after the format phase is not added to the index, while the
persisted row list keeps one (stripped) entry per processed row; in the
legacy path a row with a truthy url always contributes a document, whatever
its boost.
-/
theorem boost_exclusion (cfg : RebuildConfig) (refls : List ReflectionData)
    (sf : Nat → List (String × String))
    (formats : List (SearchRow → SearchRow)) (opts : LegacyFormatOptions)
    (id : Nat) (item row : SearchRow) (b : ℚ) :
    ((afterFormatCurrent cfg refls formats item).boost = some b → b ≤ 0 →
      (stepCurrent cfg refls sf formats id item).snd = none ∧
      (stepCurrent cfg refls sf formats id item).fst.boost = none) ∧
    (∀ rows : List SearchRow,
      (rebuildRows (stepCurrent cfg refls sf formats) rows).fst.length =
        rows.length) ∧
    (row.url ≠ "" →
      ((stepLegacy cfg refls sf opts id row).snd).isSome = true) := by
  refine ⟨?_, ?_, ?_⟩
  · intro hb hle
    have hadd : addCheck (afterFormatCurrent cfg refls formats item) = false := by
      unfold addCheck
      rw [hb]
      simp [not_lt.mpr hle]
    constructor
    · show (stepCurrent cfg refls sf formats id item).snd = none
      unfold stepCurrent
      simp only [hadd, Bool.false_eq_true, if_false]
    · rfl
  · intro rows
    exact rebuildRowsFrom_fst_length _ 0 rows
  · intro hurl
    unfold stepLegacy
    rw [if_neg hurl]
    rfl

/-- The Scenario 3 format callback: set the boost of the row with url `b`
to 0. -/
def fmtZero : List (SearchRow → SearchRow) :=
  [fun it => if it.url == "b" then { it with boost := some 0 } else it]

/-- The second row of Scenario 3. -/
def itemB : SearchRow := { url := "b" }

/-- C5 witness: the exclusion, the row-retention count, and the legacy
no-exclusion evaluated on the Scenario 3 data. -/
theorem boost_exclusion_witness :
    ((stepCurrent cfg0 [] noExtra fmtZero 1 itemB).snd = none ∧
      (stepCurrent cfg0 [] noExtra fmtZero 1 itemB).fst.boost = none) ∧
    (rebuildRows (stepCurrent cfg0 [] noExtra fmtZero)
        [rowFull, itemB]).fst.length = [rowFull, itemB].length ∧
    ((stepLegacy cfg0 [] noExtra {} 1 rowFull).snd).isSome = true := by
  have h := boost_exclusion cfg0 [] noExtra fmtZero {} 1 itemB rowFull 0
  exact ⟨h.1 (by decide) (by decide), h.2.1 [rowFull, itemB],
    h.2.2 (by decide)⟩

lemma stepCurrent_doc_id (cfg : RebuildConfig) (refls : List ReflectionData)
    (sf : Nat → List (String × String))
    (formats : List (SearchRow → SearchRow)) :
    ∀ (i : Nat) (r : SearchRow) (d : IndexDoc),
      (stepCurrent cfg refls sf formats i r).snd = some d → d.id = i := by
  intro i r d h
  unfold stepCurrent at h
  simp only at h
  split at h
  · rw [← Option.some.inj h]
  · exact absurd h (by simp)

lemma stepLegacy_doc_id (cfg : RebuildConfig) (refls : List ReflectionData)
    (sf : Nat → List (String × String)) (opts : LegacyFormatOptions) :
    ∀ (i : Nat) (r : SearchRow) (d : IndexDoc),
      (stepLegacy cfg refls sf opts i r).snd = some d → d.id = i := by
  intro i r d h
  unfold stepLegacy at h
  split at h
  · exact absurd h (by simp)
  · rw [← Option.some.inj h]

lemma mem_rebuildRowsFrom_snd
    (step : Nat → SearchRow → SearchRow × Option IndexDoc)
    (hstep : ∀ i r d, (step i r).snd = some d → d.id = i) :
    ∀ (i : Nat) (rows : List SearchRow) (d : IndexDoc),
      d ∈ (rebuildRowsFrom step i rows).snd →
        ∃ j, ∃ hj : j < rows.length,
          i + j = d.id ∧ (step (i + j) (rows.get ⟨j, hj⟩)).snd = some d := by
  intro i rows
  induction rows generalizing i with
  | nil => intro d h; simp [rebuildRowsFrom] at h
  | cons r0 rest ih =>
    intro d h
    simp only [rebuildRowsFrom] at h
    cases hs : (step i r0).snd with
    | none =>
      rw [hs] at h
      rcases ih (i + 1) d h with ⟨j, hj, hid, hd⟩
      refine ⟨j + 1, by simp only [List.length_cons]; omega, by omega, ?_⟩
      have : i + (j + 1) = i + 1 + j := by omega
      rw [this]
      exact hd
    | some d0 =>
      rw [hs] at h
      rcases List.mem_cons.mp h with h | h
      · subst h
        refine ⟨0, by simp only [List.length_cons]; omega, ?_, ?_⟩
        · rw [Nat.add_zero]
          exact (hstep i r0 d hs).symm
        · rw [Nat.add_zero]
          exact hs
      · rcases ih (i + 1) d h with ⟨j, hj, hid, hd⟩
        refine ⟨j + 1, by simp only [List.length_cons]; omega, by omega, ?_⟩
        have : i + (j + 1) = i + 1 + j := by omega
        rw [this]
        exact hd

/--
C6: index document ids are positional. In both rebuild paths, every document
added to the index carries an id below the row-list length, and the row at
that very position is the one whose processing produced the document (so
rows skipped for a missing url or a non-positive boost still occupy their
positional id).
-/
theorem index_ids_positional :
    (∀ (cfg : RebuildConfig) (refls : List ReflectionData)
        (sf : Nat → List (String × String))
        (formats : List (SearchRow → SearchRow)) (rows : List SearchRow)
        (d : IndexDoc),
      d ∈ (rebuildRows (stepCurrent cfg refls sf formats) rows).snd →
        ∃ hd : d.id < rows.length,
          (stepCurrent cfg refls sf formats d.id
            (rows.get ⟨d.id, hd⟩)).snd = some d) ∧
    (∀ (cfg : RebuildConfig) (refls : List ReflectionData)
        (sf : Nat → List (String × String)) (opts : LegacyFormatOptions)
        (rows : List SearchRow) (d : IndexDoc),
      d ∈ (rebuildSearch cfg refls sf opts rows).snd →
        ∃ hd : d.id < rows.length,
          (stepLegacy cfg refls sf opts d.id
            (rows.get ⟨d.id, hd⟩)).snd = some d) := by
  constructor
  · intro cfg refls sf formats rows d hmem
    rcases mem_rebuildRowsFrom_snd _ (stepCurrent_doc_id cfg refls sf formats)
        0 rows d hmem with ⟨j, hj, hid, hd⟩
    rw [Nat.zero_add] at hid hd
    subst hid
    exact ⟨hj, hd⟩
  · intro cfg refls sf opts rows d hmem
    rcases mem_rebuildRowsFrom_snd _ (stepLegacy_doc_id cfg refls sf opts)
        0 rows d hmem with ⟨j, hj, hid, hd⟩
    rw [Nat.zero_add] at hid hd
    subst hid
    exact ⟨hj, hd⟩

/-- The document the legacy path builds for `rowFull` at list position 1. -/
def dC6 : IndexDoc where
  name := some ("N")
  comment := some ("x")
  document := some ("d")
  extra := []
  id := 1
  boost := some 2

/-- C6 witness: a two-row legacy rebuild whose first row (empty url) is
skipped; the document built from the second row carries positional id 1. -/
theorem index_ids_positional_witness :
    ∃ hd : dC6.id < [{ url := "" }, rowFull].length,
      (stepLegacy cfg0 [] noExtra {} dC6.id
        (([{ url := "" }, rowFull] : List SearchRow).get ⟨dC6.id, hd⟩)).snd =
          some dC6 :=
  index_ids_positional.2 cfg0 [] noExtra {} [{ url := "" }, rowFull] dC6
    (by decide)

/-!
Navigation merge. A navigation node is a tree; the per-node step of
`formatNavigationItems` (src/index.ts lines 658-709) fills `text`, `kind`
and `class` from the matched reflection and then runs the format callbacks
on a four-field projection (`dummyItem`), copying only `text`, `kind` and
`class` back. The `class` field is named `cls` here because `class` is a
Lean keyword.
-/

/-- One node of the navigation tree. JSON fields holding `undefined` are
`none`; `path` is optional (a node without a path never matches an entity). -/
inductive NavItem : Type where
  | mk (path : Option String) (text : Option String) (kind : Option Nat)
      (cls : Option String) (children : List NavItem)

/-- The `path` field of a navigation node. -/
def NavItem.path : NavItem → Option String
  | NavItem.mk p _ _ _ _ => p

/-- The `text` field of a navigation node. -/
def NavItem.text : NavItem → Option String
  | NavItem.mk _ t _ _ _ => t

/-- The `kind` field of a navigation node. -/
def NavItem.kind : NavItem → Option Nat
  | NavItem.mk _ _ k _ _ => k

/-- The `class` field of a navigation node. -/
def NavItem.cls : NavItem → Option String
  | NavItem.mk _ _ _ c _ => c

/-- The `children` list of a navigation node. -/
def NavItem.children : NavItem → List NavItem
  | NavItem.mk _ _ _ _ cs => cs

/-- Replaces exactly the three mutable fields (`text`, `kind`, `class`) of a
node, leaving `path` and `children` as they are. -/
def NavItem.withFields : NavItem → Option String → Option Nat →
    Option String → NavItem
  | NavItem.mk p _ _ _ cs, t, k, c => NavItem.mk p t k c cs

/-- The navigation reflection filter (lines 653-656): truthy url, truthy
name, not external — any reflection kind is eligible. -/
def navReflections (refls : List ReflectionData) : List ReflectionData :=
  refls.filter (fun r => (r.url != "") && (r.name != "") && (!r.isForeign))

/-- Embeds the theme-class branch (lines 677-684): declarations and documents
get `theme.getReflectionClasses(reflection)`, every other reflection kind
gets the empty string. -/
def navThemeClasses (r : ReflectionData) : String :=
  match r.detail with
  | ReflectionDetail.other => ""
  | _ => r.classes

/-- Embeds the deprecation branch (lines 686-692): when the matched entity is
deprecated, prepend `deprecated`, space-joined onto a nonempty class. -/
def applyDeprecatedClass (r : ReflectionData) (cls : String) : String :=
  if r.deprecated = true then
    ("deprecated") ++ (if cls ≠ "" then (" ") ++ cls else cls)
  else cls

/-- The per-node fill of `formatNavigationItems` (lines 660-694): match the
node's `path` against the reflections' urls and fill any unset `text`,
`kind`, `class`. -/
def fillNavItem (refls : List ReflectionData) (item : NavItem) : NavItem :=
  match refls.find? (fun r => item.path == some r.url) with
  | none => item
  | some r =>
    let text := if item.text = none then some r.name else item.text
    let kind := if item.kind = none then some r.kind else item.kind
    let cls :=
      if item.cls = none then
        some (applyDeprecatedClass r (navThemeClasses r))
      else item.cls
    item.withFields text kind cls

/-- The mutable projection handed to navigation format callbacks
(`dummyItem`, lines 696-701): exactly `path`, `text`, `kind`, `class`. -/
structure NavProjection where
  path : Option String
  text : Option String
  kind : Option Nat
  cls : Option String

/-- Builds the projection from a node. -/
def navDummyItem (item : NavItem) : NavProjection where
  path := item.path
  text := item.text
  kind := item.kind
  cls := item.cls

/-- The per-node format phase (lines 696-709): run every format callback, in
registration order, over the projection, then copy `text`, `kind`, `class`
back onto the node. -/
def formatNavItem (formats : List (NavProjection → NavProjection))
    (item : NavItem) : NavItem :=
  let dummyItem := formats.foldl (fun d f => f d) (navDummyItem item)
  item.withFields dummyItem.text dummyItem.kind dummyItem.cls

/-- The whole per-node step of `formatNavigationItems`, children excluded
(the source recurses into `children` after this step). -/
def processNavItem (refls : List ReflectionData)
    (formats : List (NavProjection → NavProjection)) (item : NavItem) :
    NavItem :=
  formatNavItem formats (fillNavItem refls item)

lemma withFields_cls (item : NavItem) (t : Option String) (k : Option Nat)
    (c : Option String) : (item.withFields t k c).cls = c := by
  cases item
  rfl

/--
C9: deprecated navigation class. For a node whose `class` is unset and whose
`path` matches a reflection, the filled `class` is — when the entity is
deprecated — the string `deprecated` space-joined onto the theme-derived
class when that class is nonempty, and `deprecated` alone when it is empty
(which is the derived class of every non-declaration, non-document entity);
when the entity is not deprecated the filled class is the theme-derived
class itself (so the empty string for those other entity kinds).
-/
theorem nav_deprecated_class (refls : List ReflectionData) (item : NavItem)
    (r : ReflectionData) (hcls : item.cls = none)
    (hfind : refls.find? (fun x => item.path == some x.url) = some r) :
    (r.deprecated = true →
      (fillNavItem refls item).cls =
        some (if navThemeClasses r = "" then ("deprecated")
          else ("deprecated ") ++ navThemeClasses r)) ∧
    (r.deprecated = false →
      (fillNavItem refls item).cls = some (navThemeClasses r)) := by
  have hval : (fillNavItem refls item).cls =
      some (applyDeprecatedClass r (navThemeClasses r)) := by
    unfold fillNavItem
    rw [hfind]
    simp [withFields_cls, hcls]
  constructor
  · intro hdep
    rw [hval]
    unfold applyDeprecatedClass
    rw [if_pos hdep]
    by_cases hempty : navThemeClasses r = ""
    · rw [if_pos hempty, if_neg (by simp [hempty])]
      rw [hempty]
      rfl
    · rw [if_neg hempty, if_pos hempty]
      rfl
  · intro hdep
    rw [hval]
    unfold applyDeprecatedClass
    rw [if_neg (by simp [hdep])]

/-- The Scenario 5 entity: deprecated, derived class `tsd-kind-class`. -/
def navRefl5 : ReflectionData :=
  { refl0 with url := "x.html", deprecated := true }

/-- A deprecated entity of a non-declaration, non-document kind. -/
def navRefl6 : ReflectionData where
  url := "x.html"
  name := "Foo"
  kind := 4
  classes := "tsd-kind-class"
  parentName := none
  isForeign := false
  comment := none
  detail := ReflectionDetail.other
  relevanceBoost := none
  deprecated := false

/-- A navigation node matching url `x.html`, with `class` unset. -/
def navItem5 : NavItem :=
  NavItem.mk (some ("x.html")) (some ("Foo")) (some 128) none []

/-- C9 witness: Scenario 5 (deprecated declaration with derived class
`tsd-kind-class` yields `deprecated tsd-kind-class`) and the
other-entity-kind case (class fills to the empty string when not
deprecated). -/
theorem nav_deprecated_class_witness :
    (fillNavItem [navRefl5] navItem5).cls =
        some ("deprecated tsd-kind-class") ∧
    (fillNavItem [navRefl6] navItem5).cls = some ("") := by
  constructor
  · have h :=
      (nav_deprecated_class [navRefl5] navItem5 navRefl5 (rfl)
        (by decide)).1 (rfl)
    rw [h]
    decide
  · have h :=
      (nav_deprecated_class [navRefl6] navItem5 navRefl6 (rfl)
        (by decide)).2 (rfl)
    rw [h]
    decide

/--
C10: navigation format frame. The format phase hands the callbacks only the
four-field projection and copies back exactly `text`, `kind`, `class`:
whatever the callbacks do, the node's `path` and `children` are unchanged,
and the resulting `text`, `kind`, `class` are those of the folded projection.
-/
theorem nav_format_frame (formats : List (NavProjection → NavProjection))
    (item : NavItem) :
    (formatNavItem formats item).path = item.path ∧
    (formatNavItem formats item).children = item.children ∧
    (formatNavItem formats item).text =
      (formats.foldl (fun d f => f d) (navDummyItem item)).text ∧
    (formatNavItem formats item).kind =
      (formats.foldl (fun d f => f d) (navDummyItem item)).kind ∧
    (formatNavItem formats item).cls =
      (formats.foldl (fun d f => f d) (navDummyItem item)).cls := by
  cases item
  exact ⟨rfl, rfl, rfl, rfl, rfl⟩

/-!
Manifest lookup. The filesystem is external: a `DirNode` carries, per
directory of the upward walk (starting directory first, then its parents),
the directory path, its entry names, and — relevant only when the names
contain `package.json` — the result of `JSON.parse(readFileSync(...))` on
that file (`none` when reading or parsing throws).
-/

/-- A parsed JSON value, as produced by `JSON.parse`. -/
inductive JsonV : Type where
  | null
  | boolVal (b : Bool)
  | num (q : ℚ)
  | str (s : String)
  | arr (elems : List JsonV)
  | obj (fields : List (String × JsonV))

/-- JS property access on a parsed object; `JSON.parse` keeps the last
occurrence of a duplicated key, hence the reverse. -/
def objGet (fields : List (String × JsonV)) (key : String) : Option JsonV :=
  (fields.reverse.find? (fun p => p.fst == key)).map (fun p => p.snd)

/-- Embeds the validation of `getPackageFile` (lines 836-843): the parsed
value must be an object with a string `name` and, when present, a string
`version`. A parsed `null` has `typeof 'object'` but reading `.name` throws,
an array's `.name` is `undefined`, and any primitive fails the `typeof`
check — all of them end in the same caught-and-skipped outcome. -/
def manifestOk (j : JsonV) : Bool :=
  match j with
  | JsonV.obj fields =>
    (match objGet fields ("name") with
     | some (JsonV.str _) => true
     | _ => false) &&
    (match objGet fields ("version") with
     | none => true
     | some (JsonV.str _) => true
     | _ => false)
  | _ => false

/-- One directory level of the upward walk. -/
structure DirNode where
  path : String
  names : List String
  pkgContent : Option JsonV

/-- Embeds the final `.replace(/\\/g, '/')` separator normalization. -/
def slashNormalize (s : String) : String :=
  String.mk (s.data.map (fun ch => if ch = '\\' then '/' else ch))

/-- Embeds `getPackageFile` (src/index.ts lines 821-851) over the ancestor
chain of the common root: in each directory, look for an entry literally
named `package.json` (the escalade callback's
`names.find(name => /^package\.json$/.test(name))`); when present and valid,
return its normalized joined path; otherwise continue with the parent. -/
def getPackageFile : List DirNode → Option String
  | [] => none
  | d :: rest =>
    if d.names.contains ("package.json") = true then
      match d.pkgContent with
      | some j =>
        if manifestOk j = true then
          some (slashNormalize (d.path ++ ("/package.json")))
        else getPackageFile rest
      | none => getPackageFile rest
    else getPackageFile rest

/-- A directory that ends the walk: it lists a `package.json` whose content
parses and validates. -/
def validManifestDir (d : DirNode) : Bool :=
  d.names.contains ("package.json") &&
    (match d.pkgContent with
     | some j => manifestOk j
     | none => false)

/--
C8: manifest lookup returns the first ancestor directory (walking upward,
starting directory first) holding a file literally named `package.json` that
parses as JSON, is an object with a string `name`, and has a string `version`
when one is present; directories whose `package.json` is missing, unreadable,
unparsable, or invalid are skipped and the walk continues; with no valid
match the result is null.
-/
theorem packageFile_first_valid (dirs : List DirNode) :
    getPackageFile dirs =
      (dirs.find? validManifestDir).map
        (fun d => slashNormalize (d.path ++ ("/package.json"))) := by
  induction dirs with
  | nil => rfl
  | cons d rest ih =>
    simp only [getPackageFile]
    by_cases h1 : d.names.contains ("package.json") = true
    · rw [if_pos h1]
      cases hc : d.pkgContent with
      | some j =>
        dsimp only
        by_cases hm : manifestOk j = true
        · rw [if_pos hm, List.find?_cons_of_pos]
          · rfl
          · have h1m : ("package.json") ∈ d.names := by simpa using h1
            simp [validManifestDir, h1m, hc, hm]
        · rw [if_neg hm, ih, List.find?_cons_of_neg]
          simp [validManifestDir, hc, hm]
      | none =>
        dsimp only
        rw [ih, List.find?_cons_of_neg]
        simp [validManifestDir, hc]
    · have h1m : ¬ ("package.json") ∈ d.names := by simpa using h1
      rw [if_neg h1, ih, List.find?_cons_of_neg]
      simp [validManifestDir, h1m]

end LibUtils
